import Mathlib

/-!
Verification of the portfolio analytics and risk-scoring core of the
Investment-Register repository, as a shallow embedding in Lean 4.

Numeric values (Python floats) are modelled as exact rationals `ℚ`; the
continuous root-finding inside XIRR is modelled over `ℝ`.  Calendar dates are
modelled as integer day numbers.  External capabilities (market-data quotes,
the scipy root solver) are passed in as explicit parameters, mirroring the
spec's capability-interface treatment: a quote attempt either raises, returns
no data, or returns a price snapshot.
-/

namespace InvReg

/-! ## Cost-Basis Ledger (src/database.py, update_investment_position) -/

/-- A ledger transaction against one position: type string, date (day number),
quantity, and total amount, as stored on the `Transaction` row. -/
structure Tx where
  transaction_type : String
  date : ℤ
  quantity : ℚ
  total_amount : ℚ
  deriving DecidableEq, Repr

/-- One step of the replay loop in `update_investment_position`
(src/database.py lines 307-316): state is `(quantity, cost_basis)`. -/
def ledger_step (s : ℚ × ℚ) (tx : Tx) : ℚ × ℚ :=
  let quantity := s.1
  let cost_basis := s.2
  if tx.transaction_type ∈ ["Buy", "Capital Call", "Transfer In"] then
    (quantity + tx.quantity, cost_basis + tx.total_amount)
  else if tx.transaction_type ∈ ["Sell", "Capital Return", "Transfer Out"] then
    if quantity > 0 then
      let avg_cost_per_unit := if quantity ≠ 0 then cost_basis / quantity else 0
      (quantity - tx.quantity, cost_basis - avg_cost_per_unit * tx.quantity)
    else
      (quantity - tx.quantity, cost_basis)
  else
    (quantity, cost_basis)

/-- Replayed `(quantity, cost_basis)` after folding the date-ordered
transaction list from the initial state `(0, 0)`. -/
def replay_state (txs : List Tx) : ℚ × ℚ :=
  txs.foldl ledger_step (0, 0)

/-- Quantity after the replay. -/
def replay_qty (txs : List Tx) : ℚ :=
  (replay_state txs).1

/-- Cost basis after the replay. -/
def replay_cb (txs : List Tx) : ℚ :=
  (replay_state txs).2

/-- Derived cost per unit, as written back at src/database.py line 320:
`cost_basis / quantity if quantity > 0 else 0`. -/
def replay_cpu (txs : List Tx) : ℚ :=
  if replay_qty txs > 0 then replay_cb txs / replay_qty txs else 0

/-- The standalone single-transaction adjuster
`calculate_cost_basis_adjustment` (src/calculations.py lines 457-495); it has
no caller in the repository but is embedded for reference.  Result is
`(cost_basis, cost_per_unit, quantity)`. -/
def calculate_cost_basis_adjustment (current_cost_basis current_quantity : ℚ)
    (transaction_type : String) (transaction_quantity transaction_price : ℚ) :
    ℚ × ℚ × ℚ :=
  if transaction_type ∈ ["Buy", "Capital Call"] then
    let new_quantity := current_quantity + transaction_quantity
    let new_cost_basis := current_cost_basis + transaction_quantity * transaction_price
    (new_cost_basis,
      if new_quantity > 0 then new_cost_basis / new_quantity else 0,
      new_quantity)
  else if transaction_type ∈ ["Sell", "Capital Return"] then
    if current_quantity ≤ 0 then (0, 0, 0)
    else
      let avg_cost := current_cost_basis / current_quantity
      let new_quantity := current_quantity - transaction_quantity
      let new_cost_basis := new_quantity * avg_cost
      (new_cost_basis,
        if new_quantity > 0 then new_cost_basis / new_quantity else 0,
        new_quantity)
  else
    (current_cost_basis,
      if current_quantity > 0 then current_cost_basis / current_quantity else 0,
      current_quantity)

/-! ## XIRR (src/calculations.py, calculate_irr and xirr)

The guard logic and the cash-flow preprocessing are exact and computable; the
`scipy.optimize` root search (brentq on `(-0.9999, 10]` with a Newton
fallback, returning None when both fail) is passed in as a `solver`
parameter returning `Option ℝ`, per the spec's treatment of numeric solving
as a tunable external step. -/

/-- The NPV function defined inside `xirr` (src/calculations.py lines
103-109): `Σ amount_i / (1 + rate) ^ (days_i / 365)`, with a real exponent. -/
noncomputable def xnpv (dates_days : List ℤ) (amounts : List ℚ) (rate : ℝ) : ℝ :=
  ((amounts.zip dates_days).map
    (fun p => (p.1 : ℝ) / (1 + rate) ^ ((p.2 : ℝ) / 365))).sum

/-- The `xirr` function (src/calculations.py lines 85-121): `none` when there
are fewer than two flows or all amounts share a sign; otherwise the outcome
of the root search, which itself returns `none` when both brentq and the
Newton fallback fail. -/
def xirr (solver : List ℤ → List ℚ → Option ℝ)
    (dates_days : List ℤ) (amounts : List ℚ) : Option ℝ :=
  if dates_days.length < 2 ∨ amounts.length < 2 then none
  else if (∀ a ∈ amounts, 0 ≤ a) ∨ (∀ a ∈ amounts, a ≤ 0) then none
  else solver dates_days amounts

/-- Stable sort of cash flows by date, mirroring Python's
`sorted(cash_flows, key=lambda x: x[0])`. -/
def sort_flows (cash_flows : List (ℤ × ℚ)) : List (ℤ × ℚ) :=
  cash_flows.insertionSort (fun a b => a.1 ≤ b.1)

/-- The flow list `calculate_irr` hands to `xirr` (src/calculations.py lines
66-70): sorted flows plus the current value appended as a final flow. -/
def irr_all_flows (cash_flows : List (ℤ × ℚ)) (current_value : ℚ)
    (current_date : ℤ) : List (ℤ × ℚ) :=
  sort_flows cash_flows ++ [(current_date, current_value)]

/-- Day offsets from the first flow (src/calculations.py line 74). -/
def irr_dates_days (all_flows : List (ℤ × ℚ)) : List ℤ :=
  all_flows.map (fun cf => cf.1 - (all_flows.headI).1)

/-- The amounts column (src/calculations.py line 75). -/
def irr_amounts (all_flows : List (ℤ × ℚ)) : List ℚ :=
  all_flows.map (fun cf => cf.2)

/-- The `calculate_irr` pipeline (src/calculations.py lines 48-82): `none` on
an empty flow list, else the `xirr` result scaled to a percentage; the
`try/except` around `xirr` is absorbed into the solver's `Option`. -/
def calculate_irr (solver : List ℤ → List ℚ → Option ℝ)
    (cash_flows : List (ℤ × ℚ)) (current_value : ℚ) (current_date : ℤ) :
    Option ℝ :=
  if cash_flows = [] then none
  else
    match xirr solver
        (irr_dates_days (irr_all_flows cash_flows current_value current_date))
        (irr_amounts (irr_all_flows cash_flows current_value current_date)) with
    | some irr => some (irr * 100)
    | none => none

/-! ## Concentration risk (src/calculations.py, calculate_concentration_risk) -/

/-- A holding as read by `calculate_concentration_risk`: the function touches
the keys `value`, `name` and `asset_class` (with defaults for missing keys,
which a typed record cannot miss). -/
structure VHolding where
  name : String
  value : ℚ
  asset_class : String
  deriving DecidableEq, Repr

/-- One entry of the `concentrated_positions` list. -/
structure ConcEntry where
  name : String
  value : ℚ
  weight : ℚ
  asset_class : String
  deriving DecidableEq, Repr

/-- Result dict of `calculate_concentration_risk`; the zero-total branch
returns a dict without the `is_concentrated` and `threshold_used` keys, which
is modelled by `Option` fields that are `none` exactly there. -/
structure ConcResult where
  concentrated_positions : List ConcEntry
  hhi : ℚ
  is_concentrated : Option Bool
  threshold_used : Option ℚ
  deriving DecidableEq, Repr

/-- Total value summed by `calculate_concentration_risk` (line 367). -/
def conc_total_value (holdings : List VHolding) : ℚ :=
  (holdings.map (fun h => h.value)).sum

/-- The per-holding percentage weight (line 377). -/
def conc_weight (total_value : ℚ) (h : VHolding) : ℚ :=
  h.value / total_value * 100

/-- The `concentrated` list accumulated by the loop (lines 372-387): the
holdings whose weight meets the threshold, projected onto the reported
fields. -/
def conc_concentrated (holdings : List VHolding) (threshold_pct : ℚ) :
    List ConcEntry :=
  (holdings.filter
    (fun h => threshold_pct ≤ conc_weight (conc_total_value holdings) h)).map
    (fun h =>
      { name := h.name
        value := h.value
        weight := conc_weight (conc_total_value holdings) h
        asset_class := h.asset_class })

/-- The `weights_squared` accumulator (line 379). -/
def conc_weights_squared (holdings : List VHolding) : ℚ :=
  (holdings.map
    (fun h => (conc_weight (conc_total_value holdings) h / 100) ^ 2)).sum

/-- The `calculate_concentration_risk` function (src/calculations.py lines
356-397), default threshold 20. -/
def calculate_concentration_risk (holdings : List VHolding)
    (threshold_pct : ℚ) : ConcResult :=
  if conc_total_value holdings = 0 then
    { concentrated_positions := []
      hhi := 0
      is_concentrated := none
      threshold_used := none }
  else
    { concentrated_positions := conc_concentrated holdings threshold_pct
      hhi := conc_weights_squared holdings * 10000
      is_concentrated := some (decide (conc_weights_squared holdings * 10000 > 2500) ||
        decide ((conc_concentrated holdings threshold_pct).length > 0))
      threshold_used := some threshold_pct }

/-! ## Batch price refresh (src/portfolio.py, update_market_prices) -/

/-- The fields of an `Investment` row that `update_market_prices` and
`get_portfolio_overview` read and write.  Optional columns are `Option`;
Python truthiness of a string or a float is modelled explicitly at each use
site. -/
structure Inv where
  name : String
  symbol : Option String
  exchange : Option String
  asset_class : String
  entity_name : String
  currency : String
  quantity : ℚ
  cost_basis : ℚ
  cost_per_unit : ℚ
  current_price : ℚ
  current_value : ℚ
  last_nav : Option ℚ
  deriving DecidableEq, Repr

/-- A price snapshot as returned by the market-data capability:
`{price, currency}` (currency defaulting to USD is resolved by the caller
that builds the snapshot). -/
structure PriceData where
  price : ℚ
  currency : String
  deriving DecidableEq, Repr

/-- Outcome of one loop iteration's interaction with the market-data layer:
the fetch either raises (caught by the per-position `try/except`) or yields
an optional snapshot. -/
inductive QuoteOutcome where
  | exn (msg : String)
  | ok (price_data : Option PriceData)
  deriving DecidableEq, Repr

/-- Python truthiness of an optional string (`inv.symbol`). -/
def truthy_str : Option String → Bool
  | none => false
  | some s => s ≠ ""

/-- The quote the loop body ends up holding in `price_data`
(src/portfolio.py lines 43-52): the fetched snapshot in the Public Equities /
Crypto / Gold branches, `None` otherwise. -/
def price_data_for (inv : Inv) (q : Option PriceData) : Option PriceData :=
  if inv.asset_class = "Public Equities" ∧ truthy_str inv.symbol then q
  else if inv.asset_class = "Crypto" ∧ truthy_str inv.symbol then q
  else if inv.asset_class = "Gold" then q
  else none

/-- USD/CAD conversion of a fetched price (src/portfolio.py lines 58-63). -/
def convert_price (usd_cad : ℚ) (price : ℚ) (price_currency inv_currency : String) : ℚ :=
  if price_currency ≠ inv_currency then
    if price_currency = "USD" ∧ inv_currency = "CAD" then price * usd_cad
    else if price_currency = "CAD" ∧ inv_currency = "USD" then price / usd_cad
    else price
  else price

/-- Fallback for illiquid asset classes (src/portfolio.py lines 70-77):
last NAV if truthy, else cost basis; other asset classes are untouched. -/
def illiquid_fallback (inv : Inv) : Inv :=
  if inv.asset_class ∈ ["Private Business", "Venture Fund", "Venture Entity", "Real Estate"] then
    match inv.last_nav with
    | some nav =>
      if nav ≠ 0 then
        { inv with
          current_value := nav
          current_price := if inv.quantity > 0 then nav / inv.quantity else nav }
      else
        { inv with current_value := inv.cost_basis, current_price := inv.cost_per_unit }
    | none =>
      { inv with current_value := inv.cost_basis, current_price := inv.cost_per_unit }
  else inv

/-- Result of one iteration of the refresh loop. -/
inductive StepResult where
  | updated (inv : Inv)
  | unchanged (inv : Inv)
  | errored (msg : String)
  deriving DecidableEq, Repr

/-- One iteration of the loop body of `update_market_prices`
(src/portfolio.py lines 41-80): a raised exception is caught and recorded; a
truthy fetched price updates the position and counts as updated; otherwise
illiquid positions fall back to NAV/cost and nothing is counted. -/
def refresh_step (usd_cad : ℚ) (inv : Inv) (q : QuoteOutcome) : StepResult :=
  match q with
  | .exn msg => .errored (inv.name ++ ": " ++ msg)
  | .ok pd =>
    match price_data_for inv pd with
    | some data =>
      if data.price ≠ 0 then
        let price := convert_price usd_cad data.price data.currency inv.currency
        .updated { inv with
          current_price := price
          current_value := price * inv.quantity }
      else .unchanged (illiquid_fallback inv)
    | none => .unchanged (illiquid_fallback inv)

/-- The summary dict returned by `update_market_prices`. -/
structure RefreshSummary where
  updated : ℕ
  total : ℕ
  errors : List String
  usd_cad_rate : ℚ
  deriving DecidableEq, Repr

/-- The refresh loop: number of updated positions and the error list, in
iteration order. -/
def refresh_fold (usd_cad : ℚ) : List (Inv × QuoteOutcome) → ℕ × List String
  | [] => (0, [])
  | (inv, q) :: rest =>
    let tail := refresh_fold usd_cad rest
    match refresh_step usd_cad inv q with
    | .updated _ => (tail.1 + 1, tail.2)
    | .unchanged _ => tail
    | .errored msg => (tail.1, msg :: tail.2)

/-- The `update_market_prices` batch operation (src/portfolio.py lines
29-89), over the active positions paired with their quote outcomes. -/
def update_market_prices (usd_cad : ℚ) (batch : List (Inv × QuoteOutcome)) :
    RefreshSummary :=
  { updated := (refresh_fold usd_cad batch).1
    total := batch.length
    errors := (refresh_fold usd_cad batch).2
    usd_cad_rate := usd_cad }

/-- Whether a batch element's iteration counts as updated. -/
def step_is_updated (usd_cad : ℚ) (p : Inv × QuoteOutcome) : Bool :=
  match refresh_step usd_cad p.1 p.2 with
  | .updated _ => true
  | _ => false

/-- Whether a batch element's iteration records an error. -/
def step_is_errored (usd_cad : ℚ) (p : Inv × QuoteOutcome) : Bool :=
  match refresh_step usd_cad p.1 p.2 with
  | .errored _ => true
  | _ => false

/-! ## Portfolio overview (src/portfolio.py, get_portfolio_overview) -/

/-- Liquid asset classes (src/portfolio.py line 26). -/
def LIQUID_ASSET_CLASSES : List String :=
  ["Public Equities", "Crypto", "Gold", "Cash & Equivalents", "Bonds"]

/-- CAD conversion of a position's current value (src/portfolio.py lines
112-113): USD positions are multiplied by the USD/CAD rate. -/
def value_cad (usd_cad : ℚ) (inv : Inv) : ℚ :=
  inv.current_value * (if inv.currency = "USD" then usd_cad else 1)

/-- CAD conversion of a position's cost basis (line 114). -/
def cost_cad (usd_cad : ℚ) (inv : Inv) : ℚ :=
  inv.cost_basis * (if inv.currency = "USD" then usd_cad else 1)

/-- A row of the overview's `holdings` list, restricted to the fields the
claims are about. -/
structure Holding where
  name : String
  asset_class : String
  entity : String
  cost_basis : ℚ
  current_value : ℚ
  weight : ℚ
  is_liquid : Bool
  deriving DecidableEq, Repr

/-- `total_value_cad`, the fold of CAD values over the active positions
(src/portfolio.py lines 104-117). -/
def total_value_cad (usd_cad : ℚ) (invs : List Inv) : ℚ :=
  (invs.map (value_cad usd_cad)).sum

/-- The holdings row built inside the fold (lines 134-152): the weight is
initialised to 0. -/
def mk_holding (usd_cad : ℚ) (inv : Inv) : Holding :=
  { name := inv.name
    asset_class := inv.asset_class
    entity := inv.entity_name
    cost_basis := cost_cad usd_cad inv
    current_value := value_cad usd_cad inv
    weight := 0
    is_liquid := inv.asset_class ∈ LIQUID_ASSET_CLASSES }

/-- The weight pass over the holdings list (lines 154-157): each weight is
set to `current_value / total * 100` only when the total is positive. -/
def set_weights (total : ℚ) (holdings : List Holding) : List Holding :=
  holdings.map (fun h =>
    if total > 0 then { h with weight := h.current_value / total * 100 } else h)

/-- The overview's final `holdings` list with weights populated. -/
def portfolio_holdings (usd_cad : ℚ) (invs : List Inv) : List Holding :=
  set_weights (total_value_cad usd_cad invs) (invs.map (mk_holding usd_cad))

/-- Sum of the per-holding weights. -/
def weight_sum (holdings : List Holding) : ℚ :=
  (holdings.map (fun h => h.weight)).sum

/-! ## Risk register (src/models.py Risk; pages/5_Risk_Register.py) -/

/-- The `Risk` row fields the claims are about (src/models.py lines
698-741): 0-5 likelihood and impact, the stored score, and a status. -/
structure RiskRec where
  title : String
  category : String
  likelihood : ℤ
  impact : ℤ
  risk_score : ℤ
  status : String
  deriving DecidableEq, Repr

/-- Modelled from the spec: `add_risk` is imported by
pages/5_Risk_Register.py from `src.database` but no definition of it is
present under src/ (the call site at lines 579-594 passes likelihood and
impact and never a score); §4.6 of the spec says the engine recomputes
`risk_score = likelihood * impact` on every create. -/
def add_risk (title category : String) (likelihood impact : ℤ)
    (status : String) : RiskRec :=
  { title := title
    category := category
    likelihood := likelihood
    impact := impact
    risk_score := likelihood * impact
    status := status }

/-- Modelled from the spec: `update_risk` is imported by
pages/5_Risk_Register.py from `src.database` but no definition of it is
present under src/ (the call site at lines 332-345 passes likelihood and
impact and never a score); §4.6 of the spec says the engine recomputes
`risk_score = likelihood * impact` on every update. -/
def update_risk (r : RiskRec) (title category : String)
    (likelihood impact : ℤ) (status : String) : RiskRec :=
  { r with
    title := title
    category := category
    likelihood := likelihood
    impact := impact
    risk_score := likelihood * impact
    status := status }

/-- The severity label (pages/5_Risk_Register.py lines 112-118). -/
def score_label (score : ℤ) : String :=
  if score ≥ 15 then "Critical"
  else if score ≥ 5 then "Moderate"
  else "Low"

/-- Numeric rank of a severity label, for stating monotonicity. -/
def sev_rank (label : String) : ℕ :=
  if label = "Critical" then 2
  else if label = "Moderate" then 1
  else 0

/-- Active risks as computed in tab 1 (line 194): status not Closed. -/
def active_risks (risks : List RiskRec) : List RiskRec :=
  risks.filter (fun r => r.status ≠ "Closed")

/-- The Critical bucket counted in tab 1 (line 195). -/
def critical_risks (risks : List RiskRec) : List RiskRec :=
  (active_risks risks).filter (fun r => r.risk_score ≥ 15)

/-- The Moderate bucket counted in tab 1 (line 196). -/
def moderate_risks (risks : List RiskRec) : List RiskRec :=
  (active_risks risks).filter (fun r => 5 ≤ r.risk_score ∧ r.risk_score < 15)

/-- The Low bucket counted in tab 1 (line 197). -/
def low_risks (risks : List RiskRec) : List RiskRec :=
  (active_risks risks).filter (fun r => r.risk_score < 5)

/-- The severity filter applied to the filtered risk list (lines 254-259),
keyed by the selectbox value. -/
def severity_filter (choice : String) (risks : List RiskRec) : List RiskRec :=
  if choice = "Critical (15+)" then risks.filter (fun r => r.risk_score ≥ 15)
  else if choice = "Moderate (5-14)" then
    risks.filter (fun r => 5 ≤ r.risk_score ∧ r.risk_score < 15)
  else if choice = "Low (< 5)" then risks.filter (fun r => r.risk_score < 5)
  else risks

/-! ## Helper lemmas -/

/-- Distributing a division and scaling over a list sum. -/
lemma sum_map_div_mul (l : List ℚ) (t : ℚ) :
    (l.map (fun v => v / t * 100)).sum = l.sum / t * 100 := by
  induction l with
  | nil => simp
  | cons a l ih =>
    simp only [List.map_cons, List.sum_cons, ih]
    ring

/-- Distributing a division over a list sum. -/
lemma sum_map_div (l : List ℚ) (t : ℚ) :
    (l.map (fun v => v / t)).sum = l.sum / t := by
  induction l with
  | nil => simp
  | cons a l ih =>
    simp only [List.map_cons, List.sum_cons, ih]
    ring

/-- A sum of squares of nonnegative rationals is at most the square of the
sum. -/
lemma sum_sq_le_sq_sum (l : List ℚ) (hl : ∀ x ∈ l, 0 ≤ x) :
    (l.map (fun v => v ^ 2)).sum ≤ l.sum ^ 2 := by
  induction l with
  | nil => simp
  | cons a l ih =>
    have ha : 0 ≤ a := hl a (List.mem_cons_self a l)
    have hrest : ∀ x ∈ l, 0 ≤ x := fun x hx => hl x (List.mem_cons_of_mem a hx)
    have hsum : 0 ≤ l.sum := List.sum_nonneg hrest
    have := ih hrest
    simp only [List.map_cons, List.sum_cons]
    nlinarith

/-! ## C2, C3: the cost-basis ledger -/

/-- C2: in the cost-basis replay, a Sell / Capital Return / Transfer Out
transaction processed while the running quantity is already at most zero
leaves the cost basis unchanged. -/
theorem sell_with_nonpositive_qty_keeps_cost_basis (txs : List Tx) (tx : Tx)
    (hsell : tx.transaction_type ∈ ["Sell", "Capital Return", "Transfer Out"])
    (hq : replay_qty txs ≤ 0) :
    replay_cb (txs ++ [tx]) = replay_cb txs := by
  have hstate : replay_state (txs ++ [tx]) = ledger_step (replay_state txs) tx := by
    simp [replay_state, List.foldl_append]
  have hsell' : tx.transaction_type = "Sell" ∨ tx.transaction_type = "Capital Return" ∨
      tx.transaction_type = "Transfer Out" := by
    simpa using hsell
  have hnotbuy : tx.transaction_type ∉ ["Buy", "Capital Call", "Transfer In"] := by
    rcases hsell' with h | h | h <;> rw [h] <;> decide
  have hnotpos : ¬ (replay_state txs).1 > 0 := by
    simpa [replay_qty] using not_lt.mpr hq
  simp only [replay_cb, hstate, ledger_step, if_neg hnotbuy, if_pos hsell, if_neg hnotpos]

/-- Witness for C2: replaying `[Sell 5]` drives the quantity to `-5 ≤ 0`, and
a further Capital Return of 2 units leaves the cost basis unchanged. -/
theorem sell_with_nonpositive_qty_keeps_cost_basis_witness :
    replay_cb ([⟨"Sell", 0, 5, 100⟩] ++ [⟨"Capital Return", 1, 2, 50⟩]) =
      replay_cb [⟨"Sell", 0, 5, 100⟩] :=
  sell_with_nonpositive_qty_keeps_cost_basis [⟨"Sell", 0, 5, 100⟩]
    ⟨"Capital Return", 1, 2, 50⟩ (by decide)
    (by
      norm_num [replay_qty, replay_state, ledger_step]
      simp only [String.reduceEq, or_self, if_false]
      norm_num)

/-- C3: replaying `[Buy 100 units for 1000, Sell 50 units for 600]` yields
quantity 50, cost basis 500 and cost per unit 10; moreover the sale amount
does not influence the result (the average cost of the remaining units is
unchanged by the sale price). -/
theorem replay_buy_sell_scenario :
    replay_qty [⟨"Buy", 0, 100, 1000⟩, ⟨"Sell", 1, 50, 600⟩] = 50 ∧
    replay_cb [⟨"Buy", 0, 100, 1000⟩, ⟨"Sell", 1, 50, 600⟩] = 500 ∧
    replay_cpu [⟨"Buy", 0, 100, 1000⟩, ⟨"Sell", 1, 50, 600⟩] = 10 ∧
    (∀ amt : ℚ,
      replay_qty [⟨"Buy", 0, 100, 1000⟩, ⟨"Sell", 1, 50, amt⟩] = 50 ∧
      replay_cb [⟨"Buy", 0, 100, 1000⟩, ⟨"Sell", 1, 50, amt⟩] = 500 ∧
      replay_cpu [⟨"Buy", 0, 100, 1000⟩, ⟨"Sell", 1, 50, amt⟩] = 10) := by
  refine ⟨?_, ?_, ?_, fun amt => ⟨?_, ?_, ?_⟩⟩ <;>
    norm_num [replay_qty, replay_cb, replay_cpu, replay_state, ledger_step] <;>
    simp only [String.reduceEq, or_self, if_false] <;>
    norm_num

/-! ## C4: XIRR guard conditions -/

/-- C4: `xirr` returns the `None` sentinel whenever the series has fewer than
two flows or all amounts are nonnegative or all are nonpositive, regardless
of the root solver. -/
theorem xirr_undefined_on_degenerate_series
    (solver : List ℤ → List ℚ → Option ℝ)
    (dates_days : List ℤ) (amounts : List ℚ)
    (h : dates_days.length < 2 ∨ amounts.length < 2 ∨
      (∀ a ∈ amounts, 0 ≤ a) ∨ (∀ a ∈ amounts, a ≤ 0)) :
    xirr solver dates_days amounts = none := by
  unfold xirr
  split_ifs with h1 h2
  · rfl
  · rfl
  · exact absurd h (by tauto)

/-- Witness for C4: an all-positive two-flow series is rejected even though
the solver would return an answer. -/
theorem xirr_undefined_on_degenerate_series_witness :
    xirr (fun _ _ => some 0) [0, 365] [1, 2] = none :=
  xirr_undefined_on_degenerate_series (fun _ _ => some 0) [0, 365] [1, 2]
    (Or.inr (Or.inr (Or.inl (by decide))))

/-! ## C5: the two-flow 10% scenario -/

/-- On the scenario's preprocessed series, the NPV function collapses to
`-1000 + 1100 / (1 + r)`. -/
lemma xnpv_c5_closed_form (r : ℝ) :
    xnpv [0, 365, 365] [-1000, 1100, 0] r = -1000 + 1100 / (1 + r) := by
  have h365 : (((365 : ℤ) : ℝ) / 365) = 1 := by norm_num
  have h0 : (((0 : ℤ) : ℝ) / 365) = 0 := by norm_num
  simp [xnpv, List.zip, h365, h0, Real.rpow_one, Real.rpow_zero]

/-- The rate 1/10 is an NPV root of the scenario series. -/
lemma xnpv_c5_root : xnpv [0, 365, 365] [-1000, 1100, 0] (1 / 10) = 0 := by
  rw [xnpv_c5_closed_form]
  norm_num

/-- The scenario series has no NPV root other than 1/10. -/
lemma xnpv_c5_unique (r : ℝ)
    (h : xnpv [0, 365, 365] [-1000, 1100, 0] r = 0) : r = 1 / 10 := by
  rw [xnpv_c5_closed_form] at h
  by_cases h1 : (1 : ℝ) + r = 0
  · rw [h1, div_zero] at h
    norm_num at h
  · field_simp at h
    linarith

/-- C5: for the cash flows `[(day 0, -1000), (day 365, +1100)]` with current
value 0 on day 365, the preprocessing passes the guards, the NPV equation's
signs bracket a root on brentq's interval, and any solver that returns an
NPV root makes `calculate_irr` return exactly 10 (percent) — the unique root
being the rate 1/10. -/
theorem calculate_irr_two_flow_ten_percent
    (solver : List ℤ → List ℚ → Option ℝ)
    (hsound : ∀ r : ℝ, solver [0, 365, 365] [-1000, 1100, 0] = some r →
      xnpv [0, 365, 365] [-1000, 1100, 0] r = 0)
    (hfound : (solver [0, 365, 365] [-1000, 1100, 0]).isSome = true) :
    0 < xnpv [0, 365, 365] [-1000, 1100, 0] (-0.9999) ∧
    xnpv [0, 365, 365] [-1000, 1100, 0] 10 < 0 ∧
    calculate_irr solver [(0, -1000), (365, 1100)] 0 365 = some 10 := by
  refine ⟨?_, ?_, ?_⟩
  · rw [xnpv_c5_closed_form]; norm_num
  · rw [xnpv_c5_closed_form]; norm_num
  · have hflows : irr_all_flows [(0, -1000), (365, 1100)] 0 365 =
        [(0, -1000), (365, 1100), (365, 0)] := by
      decide
    have hdates : irr_dates_days [((0 : ℤ), (-1000 : ℚ)), (365, 1100), (365, 0)] =
        [0, 365, 365] := by
      decide
    have hamounts : irr_amounts [((0 : ℤ), (-1000 : ℚ)), (365, 1100), (365, 0)] =
        [-1000, 1100, 0] := by
      decide
    obtain ⟨r, hr⟩ := Option.isSome_iff_exists.mp hfound
    have hroot := hsound r hr
    have hr10 : r = 1 / 10 := xnpv_c5_unique r hroot
    have hxirr : xirr solver [0, 365, 365] [-1000, 1100, 0] = some r := by
      rw [xirr]
      rw [if_neg (by norm_num)]
      rw [if_neg ?_]
      · exact hr
      · push_neg
        refine ⟨⟨-1000, by simp, by norm_num⟩, ⟨1100, by simp, by norm_num⟩⟩
    rw [calculate_irr, if_neg (by simp), hflows, hdates, hamounts, hxirr, hr10]
    norm_num

/-- Witness for C5: a stub solver returning the exact root 1/10 makes the
pipeline return 10 percent. -/
theorem calculate_irr_two_flow_ten_percent_witness :
    0 < xnpv [0, 365, 365] [-1000, 1100, 0] (-0.9999) ∧
    xnpv [0, 365, 365] [-1000, 1100, 0] 10 < 0 ∧
    calculate_irr (fun _ _ => some (1 / 10)) [(0, -1000), (365, 1100)] 0 365 =
      some 10 :=
  calculate_irr_two_flow_ten_percent (fun _ _ => some (1 / 10))
    (fun r hr => by
      have : r = 1 / 10 := by simpa using hr.symm
      rw [this]
      exact xnpv_c5_root)
    rfl

/-! ## C6: overview weights -/

/-- With a positive total, the weight pass writes `value / total * 100` into
every holding. -/
lemma set_weights_map_pos (total : ℚ) (hs : List Holding) (hpos : 0 < total) :
    (set_weights total hs).map (fun h => h.weight) =
      hs.map (fun h => h.current_value / total * 100) := by
  unfold set_weights
  rw [List.map_map]
  refine List.map_congr_left (fun h _ => ?_)
  simp [hpos]

/-- The CAD values of the built holdings are the CAD position values. -/
lemma mk_holding_values (usd_cad : ℚ) (invs : List Inv) :
    (invs.map (mk_holding usd_cad)).map (fun h => h.current_value) =
      invs.map (value_cad usd_cad) := by
  rw [List.map_map]
  rfl

/-- C6: in the portfolio overview, the per-holding weights sum to exactly 100
whenever the CAD total is positive, and every weight is 0 when the total is
0. -/
theorem overview_weights_sum (usd_cad : ℚ) (invs : List Inv)
    (hne : invs ≠ []) :
    (0 < total_value_cad usd_cad invs →
      weight_sum (portfolio_holdings usd_cad invs) = 100) ∧
    (total_value_cad usd_cad invs = 0 →
      ∀ h ∈ portfolio_holdings usd_cad invs, h.weight = 0) := by
  constructor
  · intro hpos
    have hne0 : total_value_cad usd_cad invs ≠ 0 := ne_of_gt hpos
    unfold weight_sum portfolio_holdings
    rw [set_weights_map_pos _ _ hpos]
    rw [show (invs.map (mk_holding usd_cad)).map
        (fun h => h.current_value / total_value_cad usd_cad invs * 100) =
        (invs.map (value_cad usd_cad)).map
          (fun v => v / total_value_cad usd_cad invs * 100) by
      rw [List.map_map, List.map_map]
      rfl]
    rw [sum_map_div_mul]
    rw [show (invs.map (value_cad usd_cad)).sum = total_value_cad usd_cad invs from rfl]
    rw [div_self hne0]
    norm_num
  · intro h0 h hmem
    unfold portfolio_holdings set_weights at hmem
    rw [h0] at hmem
    simp only [lt_irrefl, if_false, List.map_map, List.mem_map] at hmem
    obtain ⟨inv, _, hinv⟩ := hmem
    rw [← hinv]
    rfl

/-- Witness for C6: a CAD and a USD position at rate 2 with CAD total 100
give weights summing to 100, and the zero-total branch is vacuous there. -/
theorem overview_weights_sum_witness :
    (0 < total_value_cad 2
        [⟨"a", none, none, "Bonds", "E", "CAD", 1, 50, 50, 60, 60, none⟩,
          ⟨"b", none, none, "Crypto", "E", "USD", 1, 10, 10, 20, 20, none⟩] →
      weight_sum (portfolio_holdings 2
        [⟨"a", none, none, "Bonds", "E", "CAD", 1, 50, 50, 60, 60, none⟩,
          ⟨"b", none, none, "Crypto", "E", "USD", 1, 10, 10, 20, 20, none⟩]) = 100) ∧
    (total_value_cad 2
        [⟨"a", none, none, "Bonds", "E", "CAD", 1, 50, 50, 60, 60, none⟩,
          ⟨"b", none, none, "Crypto", "E", "USD", 1, 10, 10, 20, 20, none⟩] = 0 →
      ∀ h ∈ portfolio_holdings 2
        [⟨"a", none, none, "Bonds", "E", "CAD", 1, 50, 50, 60, 60, none⟩,
          ⟨"b", none, none, "Crypto", "E", "USD", 1, 10, 10, 20, 20, none⟩],
        h.weight = 0) :=
  overview_weights_sum 2
    [⟨"a", none, none, "Bonds", "E", "CAD", 1, 50, 50, 60, 60, none⟩,
      ⟨"b", none, none, "Crypto", "E", "USD", 1, 10, 10, 20, 20, none⟩]
    (by simp)

/-! ## C1: the batch price refresh -/

/-- The updated counter of the refresh loop counts the iterations whose quote
produced a usable price. -/
lemma refresh_fold_updated_count (rate : ℚ) (batch : List (Inv × QuoteOutcome)) :
    (refresh_fold rate batch).1 = batch.countP (step_is_updated rate) := by
  induction batch with
  | nil => rfl
  | cons p rest ih =>
    rcases p with ⟨inv, q⟩
    rw [List.countP_cons]
    cases h : refresh_step rate inv q <;>
      simp [refresh_fold, h, step_is_updated, ih]

/-- The error list of the refresh loop has one entry per iteration that
raised. -/
lemma refresh_fold_error_count (rate : ℚ) (batch : List (Inv × QuoteOutcome)) :
    (refresh_fold rate batch).2.length = batch.countP (step_is_errored rate) := by
  induction batch with
  | nil => rfl
  | cons p rest ih =>
    rcases p with ⟨inv, q⟩
    rw [List.countP_cons]
    cases h : refresh_step rate inv q <;>
      simp [refresh_fold, h, step_is_errored, ih]

/-- An iteration is counted at most once between the updated counter and the
error list. -/
lemma refresh_fold_counts_le (rate : ℚ) (batch : List (Inv × QuoteOutcome)) :
    (refresh_fold rate batch).1 + (refresh_fold rate batch).2.length ≤
      batch.length := by
  induction batch with
  | nil => simp [refresh_fold]
  | cons p rest ih =>
    rcases p with ⟨inv, q⟩
    cases h : refresh_step rate inv q <;>
      simp [refresh_fold, h] <;> omega

/-- The refresh loop distributes over concatenation of batches. -/
lemma refresh_fold_append (rate : ℚ) (xs ys : List (Inv × QuoteOutcome)) :
    refresh_fold rate (xs ++ ys) =
      ((refresh_fold rate xs).1 + (refresh_fold rate ys).1,
        (refresh_fold rate xs).2 ++ (refresh_fold rate ys).2) := by
  induction xs with
  | nil => simp [refresh_fold]
  | cons p rest ih =>
    rcases p with ⟨inv, q⟩
    cases h : refresh_step rate inv q <;>
      simp [refresh_fold, h, ih, Prod.ext_iff] <;> omega

/-- C1 (amended): the batch refresh reports `total = N`, counts as `updated`
exactly the positions whose quote attempt yielded a usable price, records one
error per position whose processing raised, satisfies
`updated + len(errors) ≤ total` (a quote attempt that returns no data is
neither updated nor an error), and the loop is total and unaffected by
failures elsewhere in the batch: it distributes over concatenation. -/
theorem update_market_prices_partial_failure (rate : ℚ)
    (xs ys : List (Inv × QuoteOutcome)) :
    (update_market_prices rate (xs ++ ys)).total = (xs ++ ys).length ∧
    (update_market_prices rate (xs ++ ys)).updated =
      (xs ++ ys).countP (step_is_updated rate) ∧
    (update_market_prices rate (xs ++ ys)).errors.length =
      (xs ++ ys).countP (step_is_errored rate) ∧
    (update_market_prices rate (xs ++ ys)).updated +
      (update_market_prices rate (xs ++ ys)).errors.length ≤
      (xs ++ ys).length ∧
    (update_market_prices rate (xs ++ ys)).updated =
      (update_market_prices rate xs).updated +
        (update_market_prices rate ys).updated ∧
    (update_market_prices rate (xs ++ ys)).errors =
      (update_market_prices rate xs).errors ++
        (update_market_prices rate ys).errors := by
  refine ⟨rfl, refresh_fold_updated_count rate _, refresh_fold_error_count rate _,
    refresh_fold_counts_le rate _, ?_, ?_⟩
  · show (refresh_fold rate (xs ++ ys)).1 = _
    rw [refresh_fold_append]
    rfl
  · show (refresh_fold rate (xs ++ ys)).2 = _
    rw [refresh_fold_append]
    rfl

/-- Counterexample to C1 as stated: a batch of two Public Equities positions
where one quote succeeds and the other returns no data gives `updated = 1`,
`errors = []`, `total = 2`; no failure count M can satisfy both
`updated = N - M` and `len(errors) = M`, since `updated + len(errors) ≠ N`. -/
theorem update_market_prices_quote_gap :
    (update_market_prices 1
      [(⟨"S1", some "AAA", none, "Public Equities", "E", "CAD", 10, 100, 10, 0, 0, none⟩,
          QuoteOutcome.ok (some ⟨5, "CAD"⟩)),
        (⟨"S2", some "BBB", none, "Public Equities", "E", "CAD", 10, 100, 10, 0, 0, none⟩,
          QuoteOutcome.ok none)]).updated = 1 ∧
    (update_market_prices 1
      [(⟨"S1", some "AAA", none, "Public Equities", "E", "CAD", 10, 100, 10, 0, 0, none⟩,
          QuoteOutcome.ok (some ⟨5, "CAD"⟩)),
        (⟨"S2", some "BBB", none, "Public Equities", "E", "CAD", 10, 100, 10, 0, 0, none⟩,
          QuoteOutcome.ok none)]).errors.length = 0 ∧
    (update_market_prices 1
      [(⟨"S1", some "AAA", none, "Public Equities", "E", "CAD", 10, 100, 10, 0, 0, none⟩,
          QuoteOutcome.ok (some ⟨5, "CAD"⟩)),
        (⟨"S2", some "BBB", none, "Public Equities", "E", "CAD", 10, 100, 10, 0, 0, none⟩,
          QuoteOutcome.ok none)]).total = 2 ∧
    (update_market_prices 1
      [(⟨"S1", some "AAA", none, "Public Equities", "E", "CAD", 10, 100, 10, 0, 0, none⟩,
          QuoteOutcome.ok (some ⟨5, "CAD"⟩)),
        (⟨"S2", some "BBB", none, "Public Equities", "E", "CAD", 10, 100, 10, 0, 0, none⟩,
          QuoteOutcome.ok none)]).updated +
      (update_market_prices 1
        [(⟨"S1", some "AAA", none, "Public Equities", "E", "CAD", 10, 100, 10, 0, 0, none⟩,
            QuoteOutcome.ok (some ⟨5, "CAD"⟩)),
          (⟨"S2", some "BBB", none, "Public Equities", "E", "CAD", 10, 100, 10, 0, 0, none⟩,
            QuoteOutcome.ok none)]).errors.length ≠
      (update_market_prices 1
        [(⟨"S1", some "AAA", none, "Public Equities", "E", "CAD", 10, 100, 10, 0, 0, none⟩,
            QuoteOutcome.ok (some ⟨5, "CAD"⟩)),
          (⟨"S2", some "BBB", none, "Public Equities", "E", "CAD", 10, 100, 10, 0, 0, none⟩,
            QuoteOutcome.ok none)]).total := by
  refine ⟨?_, ?_, rfl, ?_⟩ <;> decide

/-! ## C7, C10: concentration risk -/

/-- Closed form of the HHI field of the concentration result. -/
lemma conc_hhi_eq (holdings : List VHolding) (t : ℚ) :
    (calculate_concentration_risk holdings t).hhi =
      if conc_total_value holdings = 0 then 0
      else (holdings.map
        (fun h => (conc_weight (conc_total_value holdings) h / 100) ^ 2)).sum *
        10000 := by
  unfold calculate_concentration_risk conc_weights_squared
  split_ifs <;> rfl

/-- The total value is invariant under permutation of the holdings. -/
lemma conc_total_perm {l1 l2 : List VHolding} (hp : l1.Perm l2) :
    conc_total_value l1 = conc_total_value l2 :=
  (hp.map _).sum_eq

/-- The squared weight collapses to `value / total`. -/
lemma conc_weight_div (t : ℚ) (h : VHolding) :
    conc_weight t h / 100 = h.value / t := by
  unfold conc_weight
  rw [mul_div_assoc]
  norm_num

/-- C7 (amended): the HHI is invariant under permutation of the holdings and
nonnegative for every holdings list; it is bounded by 10000 whenever every
holding's value is nonnegative; and a single holding with positive value (all
of the total) scores exactly 10000. -/
theorem hhi_properties (l1 l2 : List VHolding) (t : ℚ) (hp : l1.Perm l2) :
    (calculate_concentration_risk l1 t).hhi =
      (calculate_concentration_risk l2 t).hhi ∧
    0 ≤ (calculate_concentration_risk l1 t).hhi ∧
    ((∀ h ∈ l1, 0 ≤ h.value) →
      (calculate_concentration_risk l1 t).hhi ≤ 10000) ∧
    (∀ h : VHolding, 0 < h.value →
      (calculate_concentration_risk [h] t).hhi = 10000) := by
  refine ⟨?_, ?_, ?_, ?_⟩
  · rw [conc_hhi_eq, conc_hhi_eq, conc_total_perm hp,
      (hp.map (fun h => (conc_weight (conc_total_value l2) h / 100) ^ 2)).sum_eq]
  · rw [conc_hhi_eq]
    split_ifs with h0
    · norm_num
    · exact mul_nonneg
        (List.sum_nonneg (by
          intro x hx
          obtain ⟨h, _, rfl⟩ := List.mem_map.mp hx
          positivity))
        (by norm_num)
  · intro hnn
    rw [conc_hhi_eq]
    split_ifs with h0
    · norm_num
    · have hT : 0 < conc_total_value l1 := by
        rcases lt_or_eq_of_le (List.sum_nonneg (by
          intro x hx
          obtain ⟨h, hh, rfl⟩ := List.mem_map.mp hx
          exact hnn h hh)) with hlt | heq
        · exact hlt
        · exact absurd heq.symm h0
      have hstep : l1.map
          (fun h => (conc_weight (conc_total_value l1) h / 100) ^ 2) =
          ((l1.map (fun h => h.value)).map
            (fun v => v / conc_total_value l1)).map (fun v => v ^ 2) := by
        rw [List.map_map, List.map_map]
        refine List.map_congr_left (fun h _ => ?_)
        simp [conc_weight_div]
      rw [hstep]
      have hb := sum_sq_le_sq_sum
        ((l1.map (fun h => h.value)).map (fun v => v / conc_total_value l1))
        (by
          intro x hx
          obtain ⟨v, hv, rfl⟩ := List.mem_map.mp hx
          obtain ⟨h, hh, rfl⟩ := List.mem_map.mp hv
          exact div_nonneg (hnn h hh) hT.le)
      rw [sum_map_div,
        show (l1.map (fun h => h.value)).sum = conc_total_value l1 from rfl,
        div_self (by exact h0)] at hb
      nlinarith
  · intro h hpos
    rw [conc_hhi_eq]
    have htot : conc_total_value [h] = h.value := by
      simp [conc_total_value]
    rw [htot, if_neg (ne_of_gt hpos)]
    simp only [List.map_cons, List.map_nil, List.sum_cons, List.sum_nil]
    rw [conc_weight_div, div_self (ne_of_gt hpos)]
    norm_num

/-- Witness for C7: two holdings in either order, nonnegative values, and
the single-holding case. -/
theorem hhi_properties_witness :
    (calculate_concentration_risk [⟨"A", 1, "x"⟩, ⟨"B", 3, "y"⟩] 20).hhi =
      (calculate_concentration_risk [⟨"B", 3, "y"⟩, ⟨"A", 1, "x"⟩] 20).hhi ∧
    0 ≤ (calculate_concentration_risk [⟨"A", 1, "x"⟩, ⟨"B", 3, "y"⟩] 20).hhi ∧
    ((∀ h ∈ [(⟨"A", 1, "x"⟩ : VHolding), ⟨"B", 3, "y"⟩], 0 ≤ h.value) →
      (calculate_concentration_risk [⟨"A", 1, "x"⟩, ⟨"B", 3, "y"⟩] 20).hhi ≤ 10000) ∧
    (∀ h : VHolding, 0 < h.value →
      (calculate_concentration_risk [h] 20).hhi = 10000) :=
  hhi_properties [⟨"A", 1, "x"⟩, ⟨"B", 3, "y"⟩] [⟨"B", 3, "y"⟩, ⟨"A", 1, "x"⟩] 20
    (by decide)

/-- Counterexample to C7 as stated: with a negative-value holding the HHI
exceeds 10000 (here 50000 on `[200, -100]`). -/
theorem hhi_exceeds_bound_on_negative_value :
    10000 < (calculate_concentration_risk
      [⟨"A", 200, "x"⟩, ⟨"B", -100, "y"⟩] 20).hhi := by
  rw [conc_hhi_eq]
  norm_num [conc_total_value, conc_weight]

/-- C10: a zero total value (in particular the empty holdings list) yields
exactly `{concentrated_positions := [], hhi := 0}` with the
`is_concentrated` and `threshold_used` keys absent, whereas any non-zero
total populates both keys. -/
theorem concentration_zero_total_shape (holdings : List VHolding) (t : ℚ) :
    (conc_total_value holdings = 0 →
      calculate_concentration_risk holdings t =
        { concentrated_positions := []
          hhi := 0
          is_concentrated := none
          threshold_used := none }) ∧
    (conc_total_value holdings ≠ 0 →
      (calculate_concentration_risk holdings t).is_concentrated ≠ none ∧
      (calculate_concentration_risk holdings t).threshold_used = some t) := by
  constructor
  · intro h0
    unfold calculate_concentration_risk
    rw [if_pos h0]
  · intro h0
    unfold calculate_concentration_risk
    rw [if_neg h0]
    exact ⟨by simp, rfl⟩

/-! ## C8: risk score recomputation -/

/-- C8: after every create and every update with likelihood and impact in
`[0,5] × [0,5]`, the stored score equals `likelihood * impact`; it is never
taken from a caller-supplied score. -/
theorem risk_score_recomputed (title category : String) (l i : ℤ)
    (status : String) (r : RiskRec)
    (hl0 : 0 ≤ l) (hl5 : l ≤ 5) (hi0 : 0 ≤ i) (hi5 : i ≤ 5) :
    (add_risk title category l i status).risk_score = l * i ∧
    (update_risk r title category l i status).risk_score = l * i :=
  ⟨rfl, rfl⟩

/-- Witness for C8: likelihood 4 and impact 4 on a create and on an update of
a pre-existing risk whose stored score was stale. -/
theorem risk_score_recomputed_witness :
    (add_risk "Key person" "Operational" 4 4 "Identified").risk_score = 4 * 4 ∧
    (update_risk ⟨"Old", "Market", 1, 2, 2, "Assessed"⟩ "Old" "Market" 4 4
      "Assessed").risk_score = 4 * 4 :=
  risk_score_recomputed "Key person" "Operational" 4 4 "Identified"
    ⟨"Old", "Market", 1, 2, 2, "Assessed"⟩
    (by decide) (by decide) (by decide) (by decide)

/-! ## C9: severity banding -/

/-- The three severity bands as an iff characterisation of `score_label`. -/
lemma score_label_iff (s : ℤ) :
    (score_label s = "Critical" ↔ 15 ≤ s) ∧
    (score_label s = "Moderate" ↔ 5 ≤ s ∧ s < 15) ∧
    (score_label s = "Low" ↔ s < 5) := by
  unfold score_label
  split_ifs with h1 h2 <;>
    refine ⟨?_, ?_, ?_⟩ <;>
    simp [String.reduceEq] <;>
    omega

/-- C9: the severity banding is the total function Critical (≥ 15), Moderate
(5..14), Low (< 5); the tab-1 counting buckets and the severity filters are
exactly the label-based bands; likelihood 4 × impact 4 lands in Critical and
a zero factor lands in Low; and the banding is monotone in the score. -/
theorem severity_banding_consistent :
    (∀ s : ℤ, (score_label s = "Critical" ↔ 15 ≤ s) ∧
      (score_label s = "Moderate" ↔ 5 ≤ s ∧ s < 15) ∧
      (score_label s = "Low" ↔ s < 5)) ∧
    (∀ risks : List RiskRec,
      critical_risks risks = (active_risks risks).filter
        (fun r => decide (score_label r.risk_score = "Critical")) ∧
      moderate_risks risks = (active_risks risks).filter
        (fun r => decide (score_label r.risk_score = "Moderate")) ∧
      low_risks risks = (active_risks risks).filter
        (fun r => decide (score_label r.risk_score = "Low"))) ∧
    (∀ risks : List RiskRec,
      severity_filter "Critical (15+)" risks = risks.filter
        (fun r => decide (score_label r.risk_score = "Critical")) ∧
      severity_filter "Moderate (5-14)" risks = risks.filter
        (fun r => decide (score_label r.risk_score = "Moderate")) ∧
      severity_filter "Low (< 5)" risks = risks.filter
        (fun r => decide (score_label r.risk_score = "Low"))) ∧
    score_label (4 * 4) = "Critical" ∧
    (∀ x : ℤ, score_label (0 * x) = "Low" ∧ score_label (x * 0) = "Low") ∧
    (∀ s t : ℤ, s ≤ t → sev_rank (score_label s) ≤ sev_rank (score_label t)) := by
  have hc : ∀ s : ℤ, decide (15 ≤ s) = decide (score_label s = "Critical") :=
    fun s => decide_eq_decide.mpr (score_label_iff s).1.symm
  have hm : ∀ s : ℤ, decide (5 ≤ s ∧ s < 15) =
      decide (score_label s = "Moderate") :=
    fun s => decide_eq_decide.mpr (score_label_iff s).2.1.symm
  have hl : ∀ s : ℤ, decide (s < 5) = decide (score_label s = "Low") :=
    fun s => decide_eq_decide.mpr (score_label_iff s).2.2.symm
  refine ⟨score_label_iff, ?_, ?_, ?_, ?_, ?_⟩
  · intro risks
    refine ⟨?_, ?_, ?_⟩
    · exact List.filter_congr (fun r _ => hc r.risk_score)
    · exact List.filter_congr (fun r _ => hm r.risk_score)
    · exact List.filter_congr (fun r _ => hl r.risk_score)
  · intro risks
    refine ⟨?_, ?_, ?_⟩
    · rw [severity_filter, if_pos rfl]
      exact List.filter_congr (fun r _ => hc r.risk_score)
    · rw [severity_filter, if_neg (by decide), if_pos rfl]
      exact List.filter_congr (fun r _ => hm r.risk_score)
    · rw [severity_filter, if_neg (by decide), if_neg (by decide), if_pos rfl]
      exact List.filter_congr (fun r _ => hl r.risk_score)
  · decide
  · intro x
    constructor <;> simp [score_label]
  · intro s t hst
    simp only [score_label]
    split_ifs <;> simp [sev_rank, String.reduceEq] <;> omega

end InvReg
